import Mathlib

/-!
Verification of the Spark UI exposure core (`pkg/controller/sparkapplication/sparkui.go`
of spark-on-k8s-operator v3.3.1): a shallow embedding of the port resolvers, the URL
templater, and the service / ingress provisioners, together with theorems settling the
frozen claims about them.

Modelling conventions:
* Go `map[string]string` values are embedded as association lists
  (`List (String × String)`); a `nil` Go map versus a present map is kept as
  `Option (List (String × String))` where the distinction is observable.
* Go `int`/`int32` are embedded as `Int` with explicit two's-complement truncation
  (`toInt32`) where the code converts.
* Fallible Go functions returning `(T, error)` are embedded as products with an
  `Option`/`Except` error component.
* The kubernetes client is a parameter `request → Except String response`; each
  provisioner additionally returns the list of objects it submitted to the client,
  so that "performs no creation call" is expressible as an empty submission list.
-/

set_option autoImplicit false

/-! ### Association-list helpers (embedding of Go string maps) -/

/-- Lookup in an association list (first binding wins, mirroring Go map lookup). -/
def lookupA (m : List (String × String)) (k : String) : Option String :=
  match m with
  | [] => none
  | (k', v) :: rest => if k' = k then some v else lookupA rest k

/-- Go map assignment `m[k] = v`, embedded as overwrite-or-append. -/
def insertA (m : List (String × String)) (k v : String) : List (String × String) :=
  match m with
  | [] => [(k, v)]
  | (k', v') :: rest => if k' = k then (k, v) :: rest else (k', v') :: insertA rest k v

/-- Lookup through an optional (possibly `nil`) Go map. -/
def annLookup (m : Option (List (String × String))) (k : String) : Option String :=
  match m with
  | none => none
  | some l => lookupA l k

/-! ### Embedding of Go `strconv.Atoi`

`strconv.Atoi(s)` is `ParseInt(s, 10, 64)` on 64-bit platforms: an optional sign
followed by at least one ASCII digit; a syntax error yields value 0, a range error
yields the clamped `int64` bound. `decimalVal` is the pure mathematical denotation of
the same syntax (no range clamping); `goAtoi` derives the Go result from it. -/

/-- Error kinds of `strconv.Atoi` (`strconv.ErrSyntax` / `strconv.ErrRange`). -/
inductive AtoiErr where
  | syntaxErr
  | rangeErr
deriving DecidableEq

/-- Numeric value of a list of ASCII digits. -/
def parseDigitsVal (l : List Char) : Nat :=
  l.foldl (fun n c => n * 10 + (c.toNat - 48)) 0

/-- Mathematical denotation of a base-10 integer literal with optional sign:
`some k` when the string is a valid base-10 integer denoting `k`, else `none`. -/
def decimalVal (s : String) : Option Int :=
  match s.data with
  | [] => none
  | c :: rest =>
    let p : Bool × List Char :=
      if c = '-' then (true, rest)
      else if c = '+' then (false, rest)
      else (false, c :: rest)
    if p.2 = [] then none
    else if p.2.all Char.isDigit then
      some (if p.1 then -(parseDigitsVal p.2 : Int) else (parseDigitsVal p.2 : Int))
    else none

/-- Embedding of Go `strconv.Atoi` (= `ParseInt(s, 10, 0)` with 64-bit `int`):
syntax errors return 0, out-of-range values are clamped to the `int64` bounds with a
range error. -/
def goAtoi (s : String) : Int × Option AtoiErr :=
  match decimalVal s with
  | none => (0, some AtoiErr.syntaxErr)
  | some k =>
    if k ≥ 9223372036854775808 then (9223372036854775807, some AtoiErr.rangeErr)
    else if k < -9223372036854775808 then (-9223372036854775808, some AtoiErr.rangeErr)
    else (k, none)

/-- Go conversion `int32(n)` from a 64-bit value: two's-complement truncation. -/
def toInt32 (n : Int) : Int :=
  let m := n % 4294967296
  if m ≥ 2147483648 then m - 4294967296 else m

/-! ### Constants of `sparkui.go` -/

def sparkUIPortConfigurationKey : String := "spark.ui.port"

def defaultSparkWebUIPort : Int := 4040

def defaultSparkWebUIPortName : String := "spark-driver-ui-port"

/-! ### The workload (`v1beta2.SparkApplication`) as seen by this core

Only `Spec.SparkConf` and `Spec.SparkUIOptions` are read directly by `sparkui.go`.
The remaining inputs come through accessor helpers defined outside this slice of the
repository (`getResourceLabels`, `getOwnerReference`, `getServiceAnnotations`,
`getIngressResourceAnnotations`, `getIngressTlsHosts`, `getUIServiceType`,
`getDefaultUIServiceName`, `getDefaultUIIngressName`); per the spec these are
read-only accessors of the workload, so they are embedded as record fields of the
workload, and the accessor functions as projections. -/

/-- A TLS entry of an ingress (`extensions.IngressTLS`). -/
structure IngressTLS where
  hosts : List String := []
  secretName : String := ""
deriving DecidableEq

/-- An owner reference, modelled as a plain identifier (spec §9: a backward
reference used only for cascade deletion). -/
structure OwnerReference where
  id : String := ""
deriving DecidableEq

/-- `v1beta2.SparkUIConfiguration`: optional explicit UI-exposure options. -/
structure SparkUIOptions where
  servicePort : Option Int := none
  servicePortName : Option String := none
deriving DecidableEq

/-- The part of `v1beta2.SparkApplicationSpec` read by this core. -/
structure SparkAppSpec where
  sparkConf : List (String × String) := []
  sparkUIOptions : Option SparkUIOptions := none
deriving DecidableEq

/-- The workload together with the results of its external accessors. -/
structure SparkApplication where
  name : String := ""
  namesp : String := ""
  spec : SparkAppSpec := {}
  resourceLabels : List (String × String) := []
  ownerRef : OwnerReference := {}
  uiServiceType : String := "ClusterIP"
  svcAnnotations : List (String × String) := []
  ingressResAnnotations : List (String × String) := []
  ingressTls : List IngressTLS := []
  defaultUIServiceName : String := ""
  defaultUIIngressName : String := ""
deriving DecidableEq

/-- Modelled from the spec: external accessor `getResourceLabels` (defined outside
`sparkui.go`), embedded as a projection. -/
def getResourceLabels (app : SparkApplication) : List (String × String) :=
  app.resourceLabels

/-- Modelled from the spec: external accessor `getOwnerReference`, embedded as a
projection. -/
def getOwnerReference (app : SparkApplication) : OwnerReference :=
  app.ownerRef

/-- Modelled from the spec: external accessor `getServiceAnnotations` (the
operator-level service annotations supplied by the caller). -/
def getServiceAnnotations (app : SparkApplication) : List (String × String) :=
  app.svcAnnotations

/-- Modelled from the spec: external accessor `getIngressResourceAnnotations` (the
ingress-level extra annotations supplied by the caller). -/
def getIngressResourceAnnotations (app : SparkApplication) : List (String × String) :=
  app.ingressResAnnotations

/-- Modelled from the spec: external accessor `getIngressTlsHosts`. -/
def getIngressTlsHosts (app : SparkApplication) : List IngressTLS :=
  app.ingressTls

/-- Modelled from the spec: external accessor `getUIServiceType` (service type from
workload configuration, default cluster-internal). -/
def getUIServiceType (app : SparkApplication) : String :=
  app.uiServiceType

/-- Modelled from the spec: external accessor `getDefaultUIServiceName`
(deterministic service name derived from the workload). -/
def getDefaultUIServiceName (app : SparkApplication) : String :=
  app.defaultUIServiceName

/-- Modelled from the spec: external accessor `getDefaultUIIngressName`. -/
def getDefaultUIIngressName (app : SparkApplication) : String :=
  app.defaultUIIngressName

/-! ### Port resolvers (`getUITargetPort`, `getUIServicePort`, `getUIServicePortName`) -/

/-- `getUITargetPort`: look up `spark.ui.port` in `Spec.SparkConf`; if present,
`port, err := strconv.Atoi(portStr); return int32(port), err`; otherwise the default
port with no error. -/
def getUITargetPort (app : SparkApplication) : Int × Option AtoiErr :=
  match lookupA app.spec.sparkConf sparkUIPortConfigurationKey with
  | some portStr => (toInt32 (goAtoi portStr).1, (goAtoi portStr).2)
  | none => (defaultSparkWebUIPort, none)

/-- `getUIServicePort`: if `Spec.SparkUIOptions` is nil, delegate to
`getUITargetPort`; else the explicit `ServicePort` if set, else the default. -/
def getUIServicePort (app : SparkApplication) : Int × Option AtoiErr :=
  match app.spec.sparkUIOptions with
  | none => getUITargetPort app
  | some opts =>
    match opts.servicePort with
    | some port => (port, none)
    | none => (defaultSparkWebUIPort, none)

/-- `getUIServicePortName`: the explicit `ServicePortName` if options set it, else
the fixed default name. -/
def getUIServicePortName (app : SparkApplication) : String :=
  match app.spec.sparkUIOptions with
  | none => defaultSparkWebUIPortName
  | some opts =>
    match opts.servicePortName with
    | some portName => portName
    | none => defaultSparkWebUIPortName

/-! ### Embedding of Go `net/url.Parse`

A model of `url.Parse` sufficient for ingress URL templates, on `List Char`.
Covered faithfully: control-character rejection, fragment split, scheme
recognition and lowercasing (schemes are ASCII by construction), the
`ForceQuery`/query split, opaque (rootless) URLs, the colon-in-first-segment
error, authority/host extraction with port validation, userinfo splitting and
validation, percent-decoding of path/host/fragment with invalid-escape errors.
Simplified (documented, unused by the claims): percent-decoding is uniform
(`net/url` additionally restricts which escaped bytes may appear in hosts),
decoded bytes above 0x7f become the code point of the same value, IPv6 zone
identifiers are not specially handled, `RawPath`/`RawFragment` are not kept, and
the letter/digit classes of Go are taken as ASCII. -/

/-- A parsed URL (`net/url.URL` restricted to the fields this core reads). -/
structure URL where
  scheme : String := ""
  opaquePart : String := ""
  host : String := ""
  path : String := ""
  forceQuery : Bool := false
  rawQuery : String := ""
  fragment : String := ""
deriving DecidableEq

/-- A control byte in the sense of `stringContainsCTLByte`: below space or DEL. -/
def isCTL (c : Char) : Bool :=
  decide (c.toNat < 32 ∨ c.toNat = 127)

/-- ASCII lowering of one character (`strings.ToLower` restricted to ASCII, which
is all that can reach it here since scheme characters are ASCII). -/
def asciiToLower (c : Char) : Char :=
  if 'A' ≤ c ∧ c ≤ 'Z' then Char.ofNat (c.toNat + 32) else c

/-- ASCII lowering of a character list. -/
def lowerList (l : List Char) : List Char :=
  l.map asciiToLower

/-- Split at the first occurrence of `sep`: returns the part before it and, when
the separator occurs, the part after it. -/
def splitFirst (l : List Char) (sep : Char) : List Char × Option (List Char) :=
  match l with
  | [] => ([], none)
  | c :: rest =>
    if c = sep then ([], some rest)
    else
      let p := splitFirst rest sep
      (c :: p.1, p.2)

/-- Split at the last occurrence of `sep` (`strings.LastIndex`): `none` when the
separator does not occur, else the parts before and after it. -/
def splitAtLast (sep : Char) (l : List Char) : Option (List Char × List Char) :=
  match l with
  | [] => none
  | c :: rest =>
    match splitAtLast sep rest with
    | some p => some (c :: p.1, p.2)
    | none => if c = sep then some ([], rest) else none

/-- Result of `getScheme`: a leading-colon error, no scheme, or a scheme with the
remainder after the colon. -/
inductive SchemeRes where
  | missing
  | noScheme
  | found (scheme : List Char) (rest : List Char)
deriving DecidableEq

/-- Embedding of `net/url.getScheme`: scan scheme characters up to a colon. The
first character must be a letter; digits and `+ - .` may follow; any other
character (or no colon) means no scheme; a colon first means a malformed URL. -/
def getSchemeAux (acc : List Char) (l : List Char) : SchemeRes :=
  match l with
  | [] => SchemeRes.noScheme
  | c :: rest =>
    if c.isAlpha then getSchemeAux (c :: acc) rest
    else if c.isDigit ∨ c = '+' ∨ c = '-' ∨ c = '.' then
      if acc = [] then SchemeRes.noScheme else getSchemeAux (c :: acc) rest
    else if c = ':' then
      if acc = [] then SchemeRes.missing else SchemeRes.found acc.reverse rest
    else SchemeRes.noScheme

/-- One hexadecimal digit? -/
def isHexDigit (c : Char) : Bool :=
  decide (('0' ≤ c ∧ c ≤ '9') ∨ ('a' ≤ c ∧ c ≤ 'f') ∨ ('A' ≤ c ∧ c ≤ 'F'))

/-- Value of a hexadecimal digit. -/
def hexVal (c : Char) : Nat :=
  if '0' ≤ c ∧ c ≤ '9' then c.toNat - 48
  else if 'a' ≤ c ∧ c ≤ 'f' then c.toNat - 87
  else c.toNat - 55

/-- Percent-decoding (`net/url.unescape` without mode-specific byte checks):
`none` on a malformed escape (`url.EscapeError`). -/
def unescapeSimple (l : List Char) : Option (List Char) :=
  match l with
  | [] => some []
  | c :: rest =>
    if c = '%' then
      match rest with
      | a :: b :: rest' =>
        if isHexDigit a ∧ isHexDigit b then
          (unescapeSimple rest').map (fun r => Char.ofNat (16 * hexVal a + hexVal b) :: r)
        else none
      | _ => none
    else (unescapeSimple rest).map (fun r => c :: r)

/-- `net/url.validOptionalPort`: empty, or a colon followed by only digits. -/
def validOptionalPort (p : List Char) : Bool :=
  match p with
  | [] => true
  | c :: rest => decide (c = ':') && rest.all Char.isDigit

/-- `net/url.validUserinfo`: RFC 3986 userinfo characters. -/
def validUserinfo (s : List Char) : Bool :=
  s.all fun r =>
    decide (('A' ≤ r ∧ r ≤ 'Z') ∨ ('a' ≤ r ∧ r ≤ 'z') ∨ ('0' ≤ r ∧ r ≤ '9')) ||
    ['-', '.', '_', ':', '~', '!', '$', '&', Char.ofNat 39, '(', ')', '*', '+', ',',
      ';', '=', '%', '@'].contains r

/-- Embedding of `net/url.parseHost`: bracketed IPv6 hosts must close their
bracket and carry a valid optional port; otherwise everything after the last
colon must be a valid port; finally the host is percent-decoded. -/
def parseHost (host : List Char) : Except String (List Char) :=
  let unesc : Except String (List Char) :=
    match unescapeSimple host with
    | some h2 => Except.ok h2
    | none => Except.error "invalid URL escape"
  match host with
  | '[' :: _ =>
    match splitAtLast ']' host with
    | none => Except.error "missing right bracket in host"
    | some p =>
      if validOptionalPort p.2 then unesc
      else Except.error "invalid port after host"
  | _ =>
    match splitAtLast ':' host with
    | some p =>
      if validOptionalPort (':' :: p.2) then unesc
      else Except.error "invalid port after host"
    | none => unesc

/-- Embedding of `net/url.parseAuthority`: split userinfo at the last `@`, parse
the host, then validate and percent-decode the userinfo (which this model
discards after validation, since the source never reads it). -/
def parseAuthority (authority : List Char) : Except String (List Char) :=
  match splitAtLast '@' authority with
  | none => parseHost authority
  | some p =>
    match parseHost p.2 with
    | Except.error e => Except.error e
    | Except.ok host =>
      if validUserinfo p.1 then
        match unescapeSimple p.1 with
        | some _ => Except.ok host
        | none => Except.error "invalid URL escape"
      else Except.error "net/url: invalid userinfo"

/-- Does the list start with `/`? -/
def startsWithSlash (l : List Char) : Bool :=
  match l with
  | '/' :: _ => true
  | _ => false

/-- Does the list start with `//`? -/
def startsWith2Slash (l : List Char) : Bool :=
  match l with
  | '/' :: '/' :: _ => true
  | _ => false

/-- Does the list start with `///`? -/
def startsWith3Slash (l : List Char) : Bool :=
  match l with
  | '/' :: '/' :: '/' :: _ => true
  | _ => false

/-- The part of `net/url.parse` (with `viaRequest = false`) after scheme
extraction: query split, opaque URLs, the colon-in-first-segment check,
authority parsing, and path decoding. Every success carries the given scheme. -/
def afterScheme (scheme : List Char) (rest : List Char) : Except String URL :=
  let q : List Char × Bool × List Char :=
    if rest.getLast? = some '?' ∧ ¬ rest.dropLast.contains '?' then
      (rest.dropLast, true, [])
    else
      match splitFirst rest '?' with
      | (b, some qs) => (b, false, qs)
      | (b, none) => (b, false, [])
  let rest1 := q.1
  let forceQuery := q.2.1
  let rawQuery := q.2.2
  if ¬ startsWithSlash rest1 then
    if scheme ≠ [] then
      Except.ok { scheme := ⟨scheme⟩, opaquePart := ⟨rest1⟩, forceQuery := forceQuery,
                  rawQuery := ⟨rawQuery⟩ }
    else if (rest1.takeWhile (fun c => ¬ c = '/')).contains ':' then
      Except.error "first path segment in URL cannot contain colon"
    else
      match unescapeSimple rest1 with
      | none => Except.error "invalid URL escape"
      | some p =>
        Except.ok { scheme := ⟨scheme⟩, path := ⟨p⟩, forceQuery := forceQuery,
                    rawQuery := ⟨rawQuery⟩ }
  else if (scheme ≠ [] ∨ ¬ startsWith3Slash rest1) ∧ startsWith2Slash rest1 then
    let afterSlashes := rest1.drop 2
    let authority := afterSlashes.takeWhile (fun c => ¬ c = '/')
    let rest2 := afterSlashes.dropWhile (fun c => ¬ c = '/')
    match parseAuthority authority with
    | Except.error e => Except.error e
    | Except.ok host =>
      match unescapeSimple rest2 with
      | none => Except.error "invalid URL escape"
      | some p =>
        Except.ok { scheme := ⟨scheme⟩, host := ⟨host⟩, path := ⟨p⟩,
                    forceQuery := forceQuery, rawQuery := ⟨rawQuery⟩ }
  else
    match unescapeSimple rest1 with
    | none => Except.error "invalid URL escape"
    | some p =>
      Except.ok { scheme := ⟨scheme⟩, path := ⟨p⟩, forceQuery := forceQuery,
                  rawQuery := ⟨rawQuery⟩ }

/-- `net/url.parse` without the fragment part: control-character check, the `*`
special case, scheme extraction and lowering, then `afterScheme`. -/
def parseNoFrag (rawURL : List Char) : Except String URL :=
  if rawURL.any isCTL then
    Except.error "net/url: invalid control character in URL"
  else if rawURL = ['*'] then Except.ok { path := "*" }
  else
    match getSchemeAux [] rawURL with
    | SchemeRes.missing => Except.error "missing protocol scheme"
    | SchemeRes.noScheme => afterScheme [] rawURL
    | SchemeRes.found sch rest => afterScheme (lowerList sch) rest

/-- `net/url.Parse`: split the fragment at the first `#`, parse the rest, then
attach the percent-decoded fragment (an empty fragment is dropped, as in Go). -/
def urlParseCore (rawURL : List Char) : Except String URL :=
  let p := splitFirst rawURL '#'
  match parseNoFrag p.1 with
  | Except.error e => Except.error e
  | Except.ok u =>
    match p.2 with
    | none => Except.ok u
    | some frag =>
      if frag = [] then Except.ok u
      else
        match unescapeSimple frag with
        | none => Except.error "invalid URL escape"
        | some f => Except.ok { u with fragment := ⟨f⟩ }

/-- `net/url.Parse` on strings. -/
def urlParse (rawURL : String) : Except String URL :=
  urlParseCore rawURL.data

/-! ### Embedding of the placeholder templating

`sparkui.go` substitutes with
`regexp.MustCompile("\x7b\x7b\\s*[$]appName\\s*\x7d\x7d").ReplaceAllString` (and
likewise for `$appNamespace`). The pattern is anchored by literal brace pairs with
optional whitespace around the literal token, so matching is deterministic:
a match at a position is two opening braces, whitespace, the token, whitespace and
two closing braces (`\s` is RE2 whitespace: tab, newline, form feed, carriage
return, space), and `ReplaceAllString` takes the leftmost non-overlapping matches.
Go's `ReplaceAllString` additionally interprets `$` signs in the replacement text
as in `Regexp.Expand`; this is embedded by `expandRepl`. The recursions consume at
least one character per step, so they are embedded with a fuel argument
initialised to the input length, which never runs out. -/

/-- The opening brace character. -/
def lbraceChar : Char := Char.ofNat 123

/-- The closing brace character. -/
def rbraceChar : Char := Char.ofNat 125

/-- RE2 `\s`: tab, newline, form feed, carriage return, space. -/
def isGoSpace (c : Char) : Bool :=
  decide (c = ' ' ∨ c = '\t' ∨ c = '\n' ∨ c = '\x0c' ∨ c = '\r')

/-- Drop `tok` as a prefix of `l`, or fail. -/
def dropTokPrefix (tok : List Char) (l : List Char) : Option (List Char) :=
  match tok, l with
  | [], l => some l
  | _ :: _, [] => none
  | t :: ts, c :: cs => if c = t then dropTokPrefix ts cs else none

/-- Match the pattern `\x7b\x7b\s*tok\s*\x7d\x7d` at the head of `l`; on success
return the matched text and the remainder. -/
def matchPlaceholder (tok : List Char) (l : List Char) : Option (List Char × List Char) :=
  match l with
  | b1 :: b2 :: rest =>
    if b1 = lbraceChar ∧ b2 = lbraceChar then
      let sp1 := rest.takeWhile isGoSpace
      let r1 := rest.dropWhile isGoSpace
      match dropTokPrefix tok r1 with
      | none => none
      | some r2 =>
        let sp2 := r2.takeWhile isGoSpace
        let r3 := r2.dropWhile isGoSpace
        match r3 with
        | c1 :: c2 :: rem =>
          if c1 = rbraceChar ∧ c2 = rbraceChar then
            some (b1 :: b2 :: (sp1 ++ tok ++ sp2 ++ [c1, c2]), rem)
          else none
        | _ => none
    else none
  | _ => none

/-- Replace every leftmost non-overlapping placeholder match in the input with
`f` applied to the matched text. A match consumes at least four characters, so a
fuel of the input length never runs out. -/
def replaceAllTokFuel (tok : List Char) (f : List Char → List Char) :
    Nat → List Char → List Char
  | 0, l => l
  | _ + 1, [] => []
  | fuel + 1, c :: rest =>
    match matchPlaceholder tok (c :: rest) with
    | some p => f p.1 ++ replaceAllTokFuel tok f fuel p.2
    | none => c :: replaceAllTokFuel tok f fuel rest

/-- Replace every placeholder match in `l`, inserting `f` of the matched text. -/
def replaceAllTok (tok : List Char) (f : List Char → List Char) (l : List Char) :
    List Char :=
  replaceAllTokFuel tok f l.length l

/-- A character of a `$name` reference in a replacement template
(`regexp.extract`; Go uses Unicode letter/digit classes, taken here as ASCII). -/
def isExpandNameChar (c : Char) : Bool :=
  c.isAlpha || c.isDigit || decide (c = '_')

/-- `regexp.extract` applied after a `$`: parse `name` or `\x7bname\x7d`,
returning the name and the rest, or `none` when malformed. -/
def extractName (l : List Char) : Option (List Char × List Char) :=
  match l with
  | [] => none
  | c :: inner =>
    if c = lbraceChar then
      let name := inner.takeWhile isExpandNameChar
      let rest := inner.dropWhile isExpandNameChar
      if name = [] then none
      else
        match rest with
        | r :: rs => if r = rbraceChar then some (name, rs) else none
        | [] => none
    else
      let name := (c :: inner).takeWhile isExpandNameChar
      if name = [] then none else some (name, (c :: inner).dropWhile isExpandNameChar)

/-- One `$` reference resolved against the sole capture group of the placeholder
patterns (group 0, the whole match `m`): `$0` (or `$\x7b0\x7d`) yields `m`; any
other group number or name yields the empty string, as in `Regexp.expand` with no
subexpressions (leading zeros make a reference a name, hence empty). -/
def expandGroup (m : List Char) (name : List Char) : List Char :=
  if name = ['0'] then m else []

/-- `Regexp.expand` of a replacement template against a match `m`: `$$` is a
literal `$`, a valid `$` reference is resolved by `expandGroup`, a malformed one
keeps the `$` literally. Each step consumes at least one character, so a fuel of
the template length never runs out. -/
def expandReplFuel (m : List Char) : Nat → List Char → List Char
  | 0, t => t
  | _ + 1, [] => []
  | fuel + 1, c :: rest =>
    if c = '$' then
      match rest with
      | d :: rest' =>
        if d = '$' then '$' :: expandReplFuel m fuel rest'
        else
          match extractName rest with
          | some p => expandGroup m p.1 ++ expandReplFuel m fuel p.2
          | none => '$' :: expandReplFuel m fuel rest
      | [] => ['$']
    else c :: expandReplFuel m fuel rest

/-- `Regexp.expand` of the replacement template `repl` against the match `m`. -/
def expandRepl (m : List Char) (repl : List Char) : List Char :=
  expandReplFuel m repl.length repl

/-- The token of the app-name placeholder. -/
def appNameTok : List Char := "$appName".data

/-- The token of the app-namespace placeholder. -/
def appNamespaceTok : List Char := "$appNamespace".data

/-- `ingressAppNameURLRegex.ReplaceAllString(src, repl)`. -/
def ingressAppNameURLRegexReplace (src repl : String) : String :=
  ⟨replaceAllTok appNameTok (fun m => expandRepl m repl.data) src.data⟩

/-- `ingressAppNamespaceURLRegex.ReplaceAllString(src, repl)`. -/
def ingressAppNamespaceURLRegexReplace (src repl : String) : String :=
  ⟨replaceAllTok appNamespaceTok (fun m => expandRepl m repl.data) src.data⟩

/-- The claim's reading of substitution, as a second definition following the
spec's words: every placeholder occurrence is replaced by the given value
LITERALLY (no `$`-expansion of the value). Used to compare the code's
`ReplaceAllString` against the spec. -/
def specPlainReplaceAll (tok : List Char) (src repl : String) : String :=
  ⟨replaceAllTok tok (fun _ => repl.data) src.data⟩

/-! ### `getSparkUIingressURL` (the URL templater) -/

/-- The templated string of `getSparkUIingressURL`: app-name substitution first,
then app-namespace substitution on its result. -/
def templatedString (ingressURLFormat appName appNamespace : String) : String :=
  ingressAppNamespaceURLRegexReplace
    (ingressAppNameURLRegexReplace ingressURLFormat appName) appNamespace

/-- Parse, defaulting the scheme: if the parsed URL has an empty scheme, re-parse
with `http://` prepended (`⟨"http://".data ++ s.data⟩` is `"http://" ++ s`). -/
def parseWithHTTPDefault (s : String) : Except String URL :=
  match urlParse s with
  | Except.error e => Except.error e
  | Except.ok parsedURL =>
    if parsedURL.scheme = "" then urlParse ⟨"http://".data ++ s.data⟩
    else Except.ok parsedURL

/-- `getSparkUIingressURL`: substitute both placeholders, parse, and default the
scheme to `http` when absent. -/
def getSparkUIingressURL (ingressURLFormat appName appNamespace : String) :
    Except String URL :=
  let ingressURL := templatedString ingressURLFormat appName appNamespace
  match urlParse ingressURL with
  | Except.error e => Except.error e
  | Except.ok parsedURL =>
    if parsedURL.scheme = "" then urlParse ⟨"http://".data ++ ingressURL.data⟩
    else Except.ok parsedURL

/-! ### Kubernetes object model and descriptor records -/

/-- `intstr.IntOrString`. The source only ever constructs the `int` variant. -/
inductive IntOrString where
  | int (val : Int)
  | str (val : String)
deriving DecidableEq

/-- `metav1.ObjectMeta` restricted to the fields the source sets. A Go `nil`
annotations map is `none`. -/
structure ObjectMeta where
  name : String := ""
  namesp : String := ""
  labels : List (String × String) := []
  ownerReferences : List OwnerReference := []
  annotations : Option (List (String × String)) := none
deriving DecidableEq

/-- `apiv1.ServicePort` restricted to the fields the source sets. -/
structure ServicePort where
  name : String := ""
  port : Int := 0
  targetPort : IntOrString := IntOrString.int 0
deriving DecidableEq

/-- `apiv1.ServiceSpec` restricted to the fields the source reads or sets.
`clusterIP` is assigned by the cluster store on creation. -/
structure ServiceSpec where
  ports : List ServicePort := []
  selector : List (String × String) := []
  type : String := ""
  clusterIP : String := ""
deriving DecidableEq

/-- `apiv1.Service`. -/
structure Service where
  metadata : ObjectMeta := {}
  spec : ServiceSpec := {}
deriving DecidableEq

/-- `extensions.IngressBackend`. -/
structure IngressBackend where
  serviceName : String := ""
  servicePort : IntOrString := IntOrString.int 0
deriving DecidableEq

/-- `extensions.HTTPIngressPath`. -/
structure HTTPIngressPath where
  backend : IngressBackend := {}
  path : String := ""
deriving DecidableEq

/-- `extensions.IngressRule` (with the `IngressRuleValue`/`HTTP` wrapper layers
flattened into the single `paths` list the source populates). -/
structure IngressRule where
  host : String := ""
  paths : List HTTPIngressPath := []
deriving DecidableEq

/-- `extensions.IngressSpec`. -/
structure IngressSpec where
  rules : List IngressRule := []
  tls : List IngressTLS := []
deriving DecidableEq

/-- `extensions.Ingress`. -/
structure Ingress where
  metadata : ObjectMeta := {}
  spec : IngressSpec := {}
deriving DecidableEq

/-- `SparkService`: the descriptor returned by the service provisioner. -/
structure SparkService where
  serviceName : String := ""
  serviceType : String := ""
  servicePort : Int := 0
  servicePortName : String := ""
  targetPort : IntOrString := IntOrString.int 0
  serviceIP : String := ""
  serviceAnnotations : List (String × String) := []
deriving DecidableEq

/-- `SparkIngress`: the descriptor returned by the ingress provisioner. -/
structure SparkIngress where
  ingressName : String := ""
  ingressURL : URL := {}
  annotations : Option (List (String × String)) := none
  ingressTLS : List IngressTLS := []
deriving DecidableEq

/-- Modelled from the spec: label keys of the external `config` package
(`config.SparkAppNameLabel`, `config.SparkRoleLabel`, `config.SparkDriverRole`);
their exact values are irrelevant to the claims. -/
def sparkAppNameLabel : String := "sparkoperator.k8s.io/app-name"

/-- Modelled from the spec: see `sparkAppNameLabel`. -/
def sparkRoleLabel : String := "spark-role"

/-- Modelled from the spec: see `sparkAppNameLabel`. -/
def sparkDriverRole : String := "driver"

/-! ### `createSparkUIService` (the service provisioner) -/

/-- The Service object `createSparkUIService` builds and submits (lines 160-189
of `sparkui.go`): metadata from the workload accessors, one port entry
`(portName, servicePort, targetPort)`, the driver label selector, the configured
service type; the annotations field is set only when the caller-supplied
annotation map is non-empty. -/
def mkSparkUIServiceObject (app : SparkApplication) : Service :=
  let portName := getUIServicePortName app
  let port := (getUIServicePort app).1
  let tPort := (getUITargetPort app).1
  let service : Service :=
    { metadata :=
        { name := getDefaultUIServiceName app
          namesp := app.namesp
          labels := getResourceLabels app
          ownerReferences := [getOwnerReference app]
          annotations := none }
      spec :=
        { ports := [{ name := portName, port := port, targetPort := IntOrString.int tPort }]
          selector := [(sparkAppNameLabel, app.name), (sparkRoleLabel, sparkDriverRole)]
          type := getUIServiceType app
          clusterIP := "" } }
  let serviceAnnotations := getServiceAnnotations app
  if serviceAnnotations.length ≠ 0 then
    { service with metadata := { service.metadata with annotations := some serviceAnnotations } }
  else service

/-- `createSparkUIService`: resolve the ports (failing fast with an error message
built from the resolved `%d` port value), build the Service object, submit it,
and populate the returned descriptor from the client's response except for the
annotations, which echo the request-side map. Besides the Go result, the
embedding returns the list of objects submitted to the client. An empty ports
list in the response would make the Go code panic on `Ports[0]`; the embedding
returns an error in that (never-exercised) case. -/
def createSparkUIService (app : SparkApplication)
    (client : Service → Except String Service) :
    Except String SparkService × List Service :=
  match (getUIServicePort app).2 with
  | some _ =>
    (Except.error ("invalid Spark UI servicePort: " ++ toString (getUIServicePort app).1), [])
  | none =>
    match (getUITargetPort app).2 with
    | some _ =>
      (Except.error ("invalid Spark UI targetPort: " ++ toString (getUITargetPort app).1), [])
    | none =>
      let service := mkSparkUIServiceObject app
      match client service with
      | Except.error e => (Except.error e, [service])
      | Except.ok confirmed =>
        match confirmed.spec.ports with
        | [] => (Except.error "panic: index out of range", [service])
        | p0 :: _ =>
          (Except.ok
            { serviceName := confirmed.metadata.name
              serviceType := confirmed.spec.type
              servicePort := p0.port
              servicePortName := p0.name
              targetPort := p0.targetPort
              serviceIP := confirmed.spec.clusterIP
              serviceAnnotations := getServiceAnnotations app }, [service])

/-! ### `createSparkUIIngress` (the ingress provisioner) -/

/-- The rewrite-target annotation key used for sub-path mounts. -/
def rewriteTargetAnnotationKey : String := "nginx.ingress.kubernetes.io/rewrite-target"

/-- The Ingress object `createSparkUIIngress` builds and submits (lines 83-133 of
`sparkui.go`): a sub-path (non-empty, non-root) gets `(/|$)(.*)` appended; a
single rule on the URL's host backed by the service descriptor's name and port;
caller annotations are attached only when non-empty; a sub-path then forces the
rewrite-target annotation (creating the map if still nil); non-empty TLS hosts
are attached. -/
def mkSparkUIIngressObject (app : SparkApplication) (service : SparkService)
    (ingressURL : URL) : Ingress :=
  let ingressResourceAnnotations := getIngressResourceAnnotations app
  let ingressTlsHosts := getIngressTlsHosts app
  let ingressURLPath :=
    if ingressURL.path ≠ "" ∧ ingressURL.path ≠ "/" then ingressURL.path ++ "(/|$)(.*)"
    else ingressURL.path
  let ingress : Ingress :=
    { metadata :=
        { name := getDefaultUIIngressName app
          namesp := app.namesp
          labels := getResourceLabels app
          ownerReferences := [getOwnerReference app]
          annotations := none }
      spec :=
        { rules :=
            [{ host := ingressURL.host
               paths :=
                 [{ backend :=
                      { serviceName := service.serviceName
                        servicePort := IntOrString.int service.servicePort }
                    path := ingressURLPath }] }]
          tls := [] } }
  let ingress :=
    if ingressResourceAnnotations.length ≠ 0 then
      { ingress with metadata :=
          { ingress.metadata with annotations := some ingressResourceAnnotations } }
    else ingress
  let ingress :=
    if ingressURL.path ≠ "" ∧ ingressURL.path ≠ "/" then
      let anns :=
        match ingress.metadata.annotations with
        | none => []
        | some a => a
      { ingress with metadata :=
          { ingress.metadata with
              annotations := some (insertA anns rewriteTargetAnnotationKey "/$2") } }
    else ingress
  if ingressTlsHosts.length ≠ 0 then
    { ingress with spec := { ingress.spec with tls := ingressTlsHosts } }
  else ingress

/-- `createSparkUIIngress`: build the Ingress object, submit it, and — since the
source discards the client's returned object (`_, err := ...Create(...)`) —
populate the returned descriptor from the REQUEST object's name, annotations and
TLS list together with the input URL. The embedding also returns the list of
objects submitted to the client. -/
def createSparkUIIngress (app : SparkApplication) (service : SparkService)
    (ingressURL : URL) (client : Ingress → Except String Ingress) :
    Except String SparkIngress × List Ingress :=
  let ingress := mkSparkUIIngressObject app service ingressURL
  match client ingress with
  | Except.error e => (Except.error e, [ingress])
  | Except.ok _ =>
    (Except.ok
      { ingressName := ingress.metadata.name
        ingressURL := ingressURL
        annotations := ingress.metadata.annotations
        ingressTLS := ingress.spec.tls }, [ingress])

/-! ### Substring test and concrete inputs used by witnesses and counterexamples -/

/-- Does `sub` occur as a contiguous sublist of the second argument? -/
def containsSubList (sub : List Char) : List Char → Bool
  | [] => sub.isEmpty
  | c :: rest => sub.isPrefixOf (c :: rest) || containsSubList sub rest

/-- A client that accepts any Service unchanged. -/
def okServiceClient : Service → Except String Service := fun s => Except.ok s

/-- A client that accepts any Ingress unchanged. -/
def okIngressClient : Ingress → Except String Ingress := fun i => Except.ok i

/-- A workload whose conf map binds `spark.ui.port` to a non-numeric value. -/
def appNonNumericPort : SparkApplication :=
  { name := "app", namesp := "ns", spec := { sparkConf := [("spark.ui.port", "abc")] } }

/-- A workload whose conf map binds `spark.ui.port` to an integer outside int32. -/
def appHugePort : SparkApplication :=
  { name := "app", namesp := "ns", spec := { sparkConf := [("spark.ui.port", "4294967296")] } }

/-- A workload whose request-side service annotations differ from what the test
client reports back. -/
def appServerMismatch : SparkApplication :=
  { name := "a", svcAnnotations := [("req", "1")], defaultUIServiceName := "req-svc" }

/-- The Service object the test cluster store confirms: renamed, normalized and
with a cluster-assigned IP and its own annotations. -/
def serverService : Service :=
  { metadata := { name := "server-name", annotations := some [("srv", "1")] }
    spec := { ports := [{ name := "sp", port := 99, targetPort := IntOrString.int 77 }]
              type := "NodePort", clusterIP := "10.0.0.1" } }

/-- A client whose confirmed object is `serverService`, whatever was submitted. -/
def serverServiceClient : Service → Except String Service := fun _ => Except.ok serverService

/-- A workload for the ingress half of the server-confirmation counterexample. -/
def appIngressRename : SparkApplication := { defaultUIIngressName := "req-ingress" }

/-- A client that confirms the submitted Ingress under a different name. -/
def renamingIngressClient : Ingress → Except String Ingress := fun i =>
  Except.ok { i with metadata := { i.metadata with name := "server-ingress" } }

/-! ## Theorems -/

/-! ### Helper lemmas -/

theorem lookupA_insertA (m : List (String × String)) (k v : String) :
    lookupA (insertA m k v) k = some v := by
  induction m with
  | nil => simp [insertA, lookupA]
  | cons h t ih =>
    obtain ⟨k', v'⟩ := h
    by_cases hk : k' = k
    · simp [insertA, hk, lookupA]
    · simp [insertA, hk, lookupA, ih]

theorem toInt32_of_range (k : Int) (h1 : -2147483648 ≤ k) (h2 : k < 2147483648) :
    toInt32 k = k := by
  simp only [toInt32]
  split <;> omega

theorem getUITargetPort_nonNumeric (app : SparkApplication) (v : String)
    (h1 : lookupA app.spec.sparkConf sparkUIPortConfigurationKey = some v)
    (h2 : decimalVal v = none) :
    getUITargetPort app = (0, some AtoiErr.syntaxErr) := by
  have hg : goAtoi v = (0, some AtoiErr.syntaxErr) := by simp [goAtoi, h2]
  have h0 : toInt32 0 = 0 := by decide
  simp [getUITargetPort, h1, hg, h0]

/-! ### C3: target-port resolution -/

/-- C3 (amended): for a conf-map `spark.ui.port` value that is a valid base-10
integer representable in int32, `getUITargetPort` returns exactly that integer
with no error (outside int32 the Go `int32` conversion truncates, see the
counterexample); for a non-numeric value it returns port 0 with a syntax
(`InvalidConfigValue`) error; when the key is absent it returns the default
port 4040 with no error. -/
theorem getUITargetPort_resolution (app : SparkApplication) :
    (∀ v k, lookupA app.spec.sparkConf sparkUIPortConfigurationKey = some v →
      decimalVal v = some k → -2147483648 ≤ k → k < 2147483648 →
      getUITargetPort app = (k, none))
  ∧ (∀ v, lookupA app.spec.sparkConf sparkUIPortConfigurationKey = some v →
      decimalVal v = none → getUITargetPort app = (0, some AtoiErr.syntaxErr))
  ∧ (lookupA app.spec.sparkConf sparkUIPortConfigurationKey = none →
      getUITargetPort app = (defaultSparkWebUIPort, none)) := by
  refine ⟨?_, ?_, ?_⟩
  · intro v k h1 h2 h3 h4
    have hg : goAtoi v = (k, none) := by
      simp only [goAtoi, h2]
      rw [if_neg (by omega), if_neg (by omega)]
    simp [getUITargetPort, h1, hg, toInt32_of_range k h3 h4]
  · intro v h1 h2
    exact getUITargetPort_nonNumeric app v h1 h2
  · intro h1
    simp [getUITargetPort, h1]

/-- Witness for `getUITargetPort_resolution` at concrete workloads. -/
theorem getUITargetPort_resolution_witness :
    getUITargetPort { spec := { sparkConf := [("spark.ui.port", "4041")] } } = (4041, none)
  ∧ getUITargetPort appNonNumericPort = (0, some AtoiErr.syntaxErr)
  ∧ getUITargetPort { spec := { sparkConf := [] } } = (defaultSparkWebUIPort, none) :=
  ⟨(getUITargetPort_resolution _).1 "4041" 4041 (by decide) (by decide) (by decide) (by decide),
   (getUITargetPort_resolution appNonNumericPort).2.1 "abc" (by decide) (by decide),
   (getUITargetPort_resolution _).2.2 (by decide)⟩

/-- Counterexample to C3 as stated: `"4294967296"` is a valid base-10 integer,
but `getUITargetPort` returns `(0, nil)` — `int32(4294967296)` truncates to 0 —
rather than the integer itself. -/
theorem getUITargetPort_truncation_counterexample :
    decimalVal "4294967296" = some 4294967296
  ∧ getUITargetPort appHugePort = (0, none)
  ∧ ¬ ((4294967296 : Int) = 0) := by
  refine ⟨by decide, by decide, by decide⟩

/-! ### C6: service-port delegation when UI-options is absent -/

/-- C6: when the workload has no UI-options record, `getUIServicePort` returns
exactly the result of `getUITargetPort` on the same workload. -/
theorem getUIServicePort_delegation (app : SparkApplication)
    (h : app.spec.sparkUIOptions = none) :
    getUIServicePort app = getUITargetPort app := by
  simp [getUIServicePort, h]

/-- Witness for `getUIServicePort_delegation`. -/
theorem getUIServicePort_delegation_witness :
    getUIServicePort { spec := { sparkConf := [("spark.ui.port", "5055")] } } =
      getUITargetPort { spec := { sparkConf := [("spark.ui.port", "5055")] } } :=
  getUIServicePort_delegation _ rfl

/-! ### C5: service-port resolution when UI-options is present -/

/-- C5: when the UI-options record is present, `getUIServicePort` returns the
explicit service port if set, else the default 4040, with no error either way,
and the result is independent of the conf map (the conf-map key is never
consulted on this path). -/
theorem getUIServicePort_options (app : SparkApplication) (opts : SparkUIOptions)
    (h : app.spec.sparkUIOptions = some opts) :
    getUIServicePort app = (opts.servicePort.getD defaultSparkWebUIPort, none)
  ∧ ∀ conf, getUIServicePort { app with spec := { app.spec with sparkConf := conf } } =
      (opts.servicePort.getD defaultSparkWebUIPort, none) := by
  have key : ∀ (a : SparkApplication), a.spec.sparkUIOptions = some opts →
      getUIServicePort a = (opts.servicePort.getD defaultSparkWebUIPort, none) := by
    intro a ha
    cases hsp : opts.servicePort <;> simp [getUIServicePort, ha, hsp]
  exact ⟨key app h, fun conf => key _ (by simp [h])⟩

/-- Witness for `getUIServicePort_options`: an explicit port wins over a
conflicting conf-map value; an unset port falls back to the default. -/
theorem getUIServicePort_options_witness :
    getUIServicePort
      { spec :=
          { sparkConf := [("spark.ui.port", "123")]
            sparkUIOptions := some { servicePort := some 7 } } } = (7, none)
  ∧ getUIServicePort
      { spec :=
          { sparkConf := [("spark.ui.port", "123")]
            sparkUIOptions := some { servicePort := none } } } = (4040, none) :=
  ⟨(getUIServicePort_options _ { servicePort := some 7 } rfl).1,
   (getUIServicePort_options _ { servicePort := none } rfl).1⟩

/-! ### C2: service creation with a non-numeric conf-map port -/

/-- C2 (amended): a non-numeric `spark.ui.port` value makes `createSparkUIService`
fail before any creation call (the submission list is empty); the error message
reports the parsed port value, which is 0 after a failed parse — not the
offending string (see the counterexample). -/
theorem createSparkUIService_invalid_port (app : SparkApplication)
    (client : Service → Except String Service) (v : String)
    (h1 : lookupA app.spec.sparkConf sparkUIPortConfigurationKey = some v)
    (h2 : decimalVal v = none) :
    ((createSparkUIService app client).1 = Except.error "invalid Spark UI servicePort: 0"
     ∨ (createSparkUIService app client).1 = Except.error "invalid Spark UI targetPort: 0")
  ∧ (createSparkUIService app client).2 = [] := by
  have ht : getUITargetPort app = (0, some AtoiErr.syntaxErr) :=
    getUITargetPort_nonNumeric app v h1 h2
  have hz : toString (0 : Int) = "0" := rfl
  cases hopt : app.spec.sparkUIOptions with
  | none =>
    have hs : getUIServicePort app = (0, some AtoiErr.syntaxErr) := by
      simp [getUIServicePort, hopt, ht]
    exact ⟨Or.inl (by simp [createSparkUIService, hs, hz]),
           by simp [createSparkUIService, hs]⟩
  | some opts =>
    have hs2 : (getUIServicePort app).2 = none := by
      cases hsp : opts.servicePort <;> simp [getUIServicePort, hopt, hsp]
    exact ⟨Or.inr (by simp [createSparkUIService, hs2, ht, hz]),
           by simp [createSparkUIService, hs2, ht]⟩

/-- Witness for `createSparkUIService_invalid_port`. -/
theorem createSparkUIService_invalid_port_witness :
    ((createSparkUIService appNonNumericPort okServiceClient).1 =
        Except.error "invalid Spark UI servicePort: 0"
     ∨ (createSparkUIService appNonNumericPort okServiceClient).1 =
        Except.error "invalid Spark UI targetPort: 0")
  ∧ (createSparkUIService appNonNumericPort okServiceClient).2 = [] :=
  createSparkUIService_invalid_port appNonNumericPort okServiceClient "abc"
    (by decide) (by decide)

/-- Counterexample to C2 as stated: for the conf value `"abc"` the error message
is `invalid Spark UI servicePort: 0` — it does not include the offending value
(no creation call is made, as the empty submission list shows). -/
theorem createSparkUIService_message_counterexample :
    (createSparkUIService appNonNumericPort okServiceClient).1 =
      Except.error "invalid Spark UI servicePort: 0"
  ∧ (createSparkUIService appNonNumericPort okServiceClient).2 = []
  ∧ containsSubList "abc".data "invalid Spark UI servicePort: 0".data = false := by
  refine ⟨rfl, rfl, by decide⟩

/-! ### C1: sub-path rewriting and the rewrite-target annotation -/

/-- C1: the ingress object submitted by `createSparkUIIngress` carries, for a
non-empty non-root URL path, the path with `(/|$)(.*)` appended and the
rewrite-target annotation with value exactly `/$2`; for an empty or root path it
carries the path unchanged and the rewrite annotation is exactly whatever the
caller-supplied map had for that key (nothing is added). The submitted object is
`mkSparkUIIngressObject app service ingressURL`, whatever the client does. -/
theorem createSparkUIIngress_path_handling (app : SparkApplication)
    (service : SparkService) (ingressURL : URL) :
    (mkSparkUIIngressObject app service ingressURL).spec.rules =
      [{ host := ingressURL.host
         paths := [{ backend := { serviceName := service.serviceName
                                  servicePort := IntOrString.int service.servicePort }
                     path := if ingressURL.path = "" ∨ ingressURL.path = "/"
                             then ingressURL.path
                             else ingressURL.path ++ "(/|$)(.*)" }] }]
  ∧ annLookup (mkSparkUIIngressObject app service ingressURL).metadata.annotations
      rewriteTargetAnnotationKey =
      (if ingressURL.path = "" ∨ ingressURL.path = "/"
       then lookupA (getIngressResourceAnnotations app) rewriteTargetAnnotationKey
       else some "/$2")
  ∧ ∀ client, (createSparkUIIngress app service ingressURL client).2 =
      [mkSparkUIIngressObject app service ingressURL] := by
  refine ⟨?_, ?_, ?_⟩
  · by_cases hroot : ingressURL.path = "" ∨ ingressURL.path = "/"
    · have hsub : ¬ (ingressURL.path ≠ "" ∧ ingressURL.path ≠ "/") := by tauto
      by_cases hlen : (getIngressResourceAnnotations app).length ≠ 0 <;>
        by_cases htls : (getIngressTlsHosts app).length ≠ 0 <;>
          simp [mkSparkUIIngressObject, hsub, hroot, hlen, htls]
    · have hsub : ingressURL.path ≠ "" ∧ ingressURL.path ≠ "/" := by tauto
      by_cases hlen : (getIngressResourceAnnotations app).length ≠ 0 <;>
        by_cases htls : (getIngressTlsHosts app).length ≠ 0 <;>
          simp [mkSparkUIIngressObject, hsub, hroot, hlen, htls]
  · by_cases hroot : ingressURL.path = "" ∨ ingressURL.path = "/"
    · have hsub : ¬ (ingressURL.path ≠ "" ∧ ingressURL.path ≠ "/") := by tauto
      by_cases hlen : (getIngressResourceAnnotations app).length ≠ 0
      · by_cases htls : (getIngressTlsHosts app).length ≠ 0 <;>
          simp [mkSparkUIIngressObject, hsub, hroot, hlen, htls, annLookup]
      · have hnil : getIngressResourceAnnotations app = [] := by
          simpa using hlen
        by_cases htls : (getIngressTlsHosts app).length ≠ 0 <;>
          simp [mkSparkUIIngressObject, hsub, hroot, hnil, htls, annLookup, lookupA]
    · have hsub : ingressURL.path ≠ "" ∧ ingressURL.path ≠ "/" := by tauto
      by_cases hlen : (getIngressResourceAnnotations app).length ≠ 0 <;>
        by_cases htls : (getIngressTlsHosts app).length ≠ 0 <;>
          simp [mkSparkUIIngressObject, hsub, hroot, hlen, htls, annLookup, lookupA_insertA]
  · intro client
    rcases hc : client (mkSparkUIIngressObject app service ingressURL) with e | r <;>
      simp [createSparkUIIngress, hc]

/-! ### C10: the rewrite branch overwrites a caller-supplied rewrite annotation -/

/-- C10: when the caller-supplied ingress annotations already bind the
rewrite-target key and the URL path is a non-root sub-path, the submitted
object's value for that key is `/$2` — the rewrite branch runs after the
annotation merge and overwrites the caller's value. -/
theorem createSparkUIIngress_rewrite_overwrites (app : SparkApplication)
    (service : SparkService) (ingressURL : URL) (v : String)
    (h1 : lookupA (getIngressResourceAnnotations app) rewriteTargetAnnotationKey = some v)
    (h2 : ingressURL.path ≠ "") (h3 : ingressURL.path ≠ "/") :
    annLookup (mkSparkUIIngressObject app service ingressURL).metadata.annotations
      rewriteTargetAnnotationKey = some "/$2" := by
  by_cases hlen : (getIngressResourceAnnotations app).length ≠ 0 <;>
    by_cases htls : (getIngressTlsHosts app).length ≠ 0 <;>
      simp [mkSparkUIIngressObject, h2, h3, hlen, htls, annLookup, lookupA_insertA]

/-- Witness for `createSparkUIIngress_rewrite_overwrites`: a caller-supplied
`/custom` value is overwritten with `/$2`. -/
theorem createSparkUIIngress_rewrite_overwrites_witness :
    annLookup (mkSparkUIIngressObject
        { ingressResAnnotations := [(rewriteTargetAnnotationKey, "/custom")] } {}
        { path := "/ui" }).metadata.annotations rewriteTargetAnnotationKey = some "/$2" :=
  createSparkUIIngress_rewrite_overwrites _ _ _ "/custom" (by decide) (by decide) (by decide)

/-! ### C9: empty annotation maps are omitted, not set to empty -/

/-- C9: an empty caller-supplied annotation map leaves the submitted Service
object's annotations field unset (`none`, a Go nil map), and likewise for the
Ingress object when the URL path is empty or root; the object submitted by
`createSparkUIService` is `mkSparkUIServiceObject app`. -/
theorem empty_annotations_omitted (app : SparkApplication) (service : SparkService)
    (ingressURL : URL) :
    (getServiceAnnotations app = [] →
      (mkSparkUIServiceObject app).metadata.annotations = none)
  ∧ (getIngressResourceAnnotations app = [] →
      (ingressURL.path = "" ∨ ingressURL.path = "/") →
      (mkSparkUIIngressObject app service ingressURL).metadata.annotations = none)
  ∧ (∀ client, (getUIServicePort app).2 = none → (getUITargetPort app).2 = none →
      (createSparkUIService app client).2 = [mkSparkUIServiceObject app]) := by
  refine ⟨?_, ?_, ?_⟩
  · intro h
    simp [mkSparkUIServiceObject, h]
  · intro h hroot
    have hsub : ¬ (ingressURL.path ≠ "" ∧ ingressURL.path ≠ "/") := by tauto
    by_cases htls : (getIngressTlsHosts app).length ≠ 0 <;>
      simp [mkSparkUIIngressObject, hsub, h, htls]
  · intro client h1 h2
    rcases hc : client (mkSparkUIServiceObject app) with e | r
    · simp [createSparkUIService, h1, h2, hc]
    · rcases hp : r.spec.ports with _ | ⟨p0, prest⟩ <;>
        simp [createSparkUIService, h1, h2, hc, hp]

/-- Witness for `empty_annotations_omitted` at a workload with empty annotation
maps and a root URL path. -/
theorem empty_annotations_omitted_witness :
    (mkSparkUIServiceObject {}).metadata.annotations = none
  ∧ (mkSparkUIIngressObject {} {} { path := "/" }).metadata.annotations = none
  ∧ (createSparkUIService {} okServiceClient).2 = [mkSparkUIServiceObject {}] :=
  ⟨(empty_annotations_omitted {} {} { path := "/" }).1 rfl,
   (empty_annotations_omitted {} {} { path := "/" }).2.1 rfl (Or.inr rfl),
   (empty_annotations_omitted {} {} { path := "/" }).2.2 okServiceClient rfl rfl⟩

/-! ### C4: where the returned descriptors are populated from -/

/-- C4 (amended): on a successful creation `createSparkUIService` populates the
descriptor's name, type, port, port name, target port and cluster IP from the
client's confirmed object, but its annotations from the request-side map; and
`createSparkUIIngress` populates its whole descriptor from the REQUEST object
(the store's confirmed object is discarded by the source). -/
theorem descriptor_population (app : SparkApplication)
    (client : Service → Except String Service) (resp : Service)
    (p0 : ServicePort) (prest : List ServicePort)
    (h1 : (getUIServicePort app).2 = none) (h2 : (getUITargetPort app).2 = none)
    (h3 : client (mkSparkUIServiceObject app) = Except.ok resp)
    (h4 : resp.spec.ports = p0 :: prest) :
    (createSparkUIService app client).1 =
      Except.ok { serviceName := resp.metadata.name
                  serviceType := resp.spec.type
                  servicePort := p0.port
                  servicePortName := p0.name
                  targetPort := p0.targetPort
                  serviceIP := resp.spec.clusterIP
                  serviceAnnotations := getServiceAnnotations app }
  ∧ ∀ (iapp : SparkApplication) (isvc : SparkService) (iurl : URL)
      (iclient : Ingress → Except String Ingress) (iresp : Ingress),
      iclient (mkSparkUIIngressObject iapp isvc iurl) = Except.ok iresp →
      (createSparkUIIngress iapp isvc iurl iclient).1 =
        Except.ok { ingressName := (mkSparkUIIngressObject iapp isvc iurl).metadata.name
                    ingressURL := iurl
                    annotations := (mkSparkUIIngressObject iapp isvc iurl).metadata.annotations
                    ingressTLS := (mkSparkUIIngressObject iapp isvc iurl).spec.tls } := by
  constructor
  · simp [createSparkUIService, h1, h2, h3, h4]
  · intro iapp isvc iurl iclient iresp hic
    simp [createSparkUIIngress, hic]

/-- Witness for `descriptor_population` against clients that normalize the
submitted objects. -/
theorem descriptor_population_witness :
    (createSparkUIService appServerMismatch serverServiceClient).1 =
      Except.ok { serviceName := "server-name"
                  serviceType := "NodePort"
                  servicePort := 99
                  servicePortName := "sp"
                  targetPort := IntOrString.int 77
                  serviceIP := "10.0.0.1"
                  serviceAnnotations := [("req", "1")] }
  ∧ (createSparkUIIngress appIngressRename {} {} renamingIngressClient).1 =
      Except.ok { ingressName := "req-ingress"
                  ingressURL := {}
                  annotations := none
                  ingressTLS := [] } := by
  refine ⟨?_, ?_⟩
  · exact (descriptor_population appServerMismatch serverServiceClient serverService
      { name := "sp", port := 99, targetPort := IntOrString.int 77 } [] rfl rfl rfl rfl).1
  · exact (descriptor_population appServerMismatch serverServiceClient serverService
      { name := "sp", port := 99, targetPort := IntOrString.int 77 } [] rfl rfl rfl rfl).2
      appIngressRename {} {} renamingIngressClient _ rfl

/-- Counterexample to C4 as stated: the server-confirmed Service carries
annotations `[("srv", "1")]`, but the returned descriptor echoes the request-side
`[("req", "1")]`; and the server-confirmed Ingress is named `server-ingress`,
but the returned descriptor echoes the request-side name `req-ingress`. -/
theorem descriptor_population_counterexample :
    (createSparkUIService appServerMismatch serverServiceClient).1 =
      Except.ok { serviceName := "server-name"
                  serviceType := "NodePort"
                  servicePort := 99
                  servicePortName := "sp"
                  targetPort := IntOrString.int 77
                  serviceIP := "10.0.0.1"
                  serviceAnnotations := [("req", "1")] }
  ∧ serverService.metadata.annotations = some [("srv", "1")]
  ∧ ¬ ([(("req" : String), ("1" : String))] = [(("srv" : String), ("1" : String))])
  ∧ (createSparkUIIngress appIngressRename {} {} renamingIngressClient).1 =
      Except.ok { ingressName := "req-ingress"
                  ingressURL := {}
                  annotations := none
                  ingressTLS := [] }
  ∧ (match renamingIngressClient (mkSparkUIIngressObject appIngressRename {} {}) with
     | Except.ok r => r.metadata.name
     | Except.error _ => "") = "server-ingress"
  ∧ ¬ (("req-ingress" : String) = "server-ingress") := by
  refine ⟨rfl, rfl, by decide, rfl, rfl, by decide⟩

/-! ### Lemmas about templating and scheme defaulting -/

theorem expandReplFuel_no_dollar (m : List Char) :
    ∀ (fuel : Nat) (t : List Char), '$' ∉ t → expandReplFuel m fuel t = t := by
  intro fuel
  induction fuel with
  | zero => intro t _; rfl
  | succ n ih =>
    intro t ht
    cases t with
    | nil => rfl
    | cons c rest =>
      have hc : ¬ c = '$' := by
        intro hcc
        exact ht (hcc ▸ List.mem_cons_self c rest)
      have hrest : '$' ∉ rest := fun hm => ht (List.mem_cons_of_mem c hm)
      simp [expandReplFuel, hc, ih rest hrest]

theorem replaceAllTokFuel_congr (tok : List Char) (f g : List Char → List Char)
    (hfg : ∀ m, f m = g m) :
    ∀ (fuel : Nat) (l : List Char),
      replaceAllTokFuel tok f fuel l = replaceAllTokFuel tok g fuel l := by
  intro fuel
  induction fuel with
  | zero => intro l; rfl
  | succ n ih =>
    intro l
    cases l with
    | nil => rfl
    | cons c rest =>
      cases hm : matchPlaceholder tok (c :: rest) with
      | none => simp [replaceAllTokFuel, hm, ih]
      | some p => simp [replaceAllTokFuel, hm, ih, hfg]

theorem afterScheme_ok_scheme (sch rest : List Char) (u : URL)
    (h : afterScheme sch rest = Except.ok u) : u.scheme = ⟨sch⟩ := by
  simp only [afterScheme] at h
  iterate 8 (all_goals (try split at h))
  all_goals (try (exact Except.noConfusion h))
  all_goals (injection h with h2; subst h2; rfl)

theorem getSchemeAux_http (l : List Char) :
    getSchemeAux [] ('h' :: 't' :: 't' :: 'p' :: ':' :: l) =
      SchemeRes.found ['h', 't', 't', 'p'] l := rfl

theorem parseNoFrag_http_scheme (l : List Char) (u : URL)
    (h : parseNoFrag ('h' :: 't' :: 't' :: 'p' :: ':' :: '/' :: '/' :: l) = Except.ok u) :
    u.scheme = "http" := by
  unfold parseNoFrag at h
  by_cases hctl : ('h' :: 't' :: 't' :: 'p' :: ':' :: '/' :: '/' :: l).any isCTL
  · rw [if_pos hctl] at h
    cases h
  · rw [if_neg hctl] at h
    have hstar : ¬ ('h' :: 't' :: 't' :: 'p' :: ':' :: '/' :: '/' :: l) = ['*'] := by simp
    rw [if_neg hstar] at h
    rw [getSchemeAux_http ('/' :: '/' :: l)] at h
    have hs := afterScheme_ok_scheme _ _ _ h
    exact hs

theorem urlParseCore_http_scheme (s : List Char) (u : URL)
    (h : urlParseCore ('h' :: 't' :: 't' :: 'p' :: ':' :: '/' :: '/' :: s) = Except.ok u) :
    u.scheme = "http" := by
  have hsplit : splitFirst ('h' :: 't' :: 't' :: 'p' :: ':' :: '/' :: '/' :: s) '#' =
      ('h' :: 't' :: 't' :: 'p' :: ':' :: '/' :: '/' :: (splitFirst s '#').1,
        (splitFirst s '#').2) := by
    simp [splitFirst]
  simp only [urlParseCore] at h
  rw [hsplit] at h
  dsimp only at h
  rcases hp : parseNoFrag
      ('h' :: 't' :: 't' :: 'p' :: ':' :: '/' :: '/' :: (splitFirst s '#').1) with e | u0
  · rw [hp] at h
    exact Except.noConfusion h
  · rw [hp] at h
    have hscheme := parseNoFrag_http_scheme _ _ hp
    rcases hfrag : (splitFirst s '#').2 with _ | frag
    · rw [hfrag] at h
      dsimp only at h
      cases h
      exact hscheme
    · rw [hfrag] at h
      dsimp only at h
      by_cases hemp : frag = []
      · rw [if_pos hemp] at h
        cases h
        exact hscheme
      · rw [if_neg hemp] at h
        rcases hu : unescapeSimple frag with _ | f
        · rw [hu] at h
          exact Except.noConfusion h
        · rw [hu] at h
          cases h
          exact hscheme

/-! ### C7: URL templating -/

/-- C7 (amended): `getSparkUIingressURL` substitutes the app-name placeholder
first and the app-namespace placeholder on the result, then parses with the
`http` scheme default; each substituted value is inserted literally whenever it
contains no `$` (Go's `ReplaceAllString` interprets `$` in the replacement as in
`Regexp.Expand`, see the counterexample); placeholders are whitespace-tolerant
and every occurrence is replaced; the spec's example templates to scheme
`https` and host `job1-ns1.svc`. -/
theorem url_templating_behavior (t n ns : String) :
    getSparkUIingressURL t n ns = parseWithHTTPDefault (templatedString t n ns)
  ∧ ('$' ∉ n.data →
      ingressAppNameURLRegexReplace t n = specPlainReplaceAll appNameTok t n)
  ∧ ('$' ∉ ns.data → ∀ s : String,
      ingressAppNamespaceURLRegexReplace s ns = specPlainReplaceAll appNamespaceTok s ns)
  ∧ getSparkUIingressURL "https://\x7b\x7b $appName \x7d\x7d-\x7b\x7b$appNamespace\x7d\x7d.svc"
      "job1" "ns1" = Except.ok { scheme := "https", host := "job1-ns1.svc" }
  ∧ ingressAppNameURLRegexReplace "\x7b\x7b $appName \x7d\x7d" "job1" = "job1"
  ∧ ingressAppNameURLRegexReplace "\x7b\x7b$appName\x7d\x7d" "job1" = "job1"
  ∧ ingressAppNameURLRegexReplace "a\x7b\x7b$appName\x7d\x7db\x7b\x7b$appName\x7d\x7d" "X"
      = "aXbX" := by
  refine ⟨rfl, ?_, ?_, rfl, rfl, rfl, rfl⟩
  · intro hn
    have hid : ∀ m, expandRepl m n.data = n.data := fun m =>
      expandReplFuel_no_dollar m n.data.length n.data hn
    unfold ingressAppNameURLRegexReplace specPlainReplaceAll replaceAllTok
    rw [replaceAllTokFuel_congr appNameTok _ _ hid]
  · intro hns s
    have hid : ∀ m, expandRepl m ns.data = ns.data := fun m =>
      expandReplFuel_no_dollar m ns.data.length ns.data hns
    unfold ingressAppNamespaceURLRegexReplace specPlainReplaceAll replaceAllTok
    rw [replaceAllTokFuel_congr appNamespaceTok _ _ hid]

/-- Witness for `url_templating_behavior` at `$`-free values. -/
theorem url_templating_behavior_witness :
    ingressAppNameURLRegexReplace "\x7b\x7b$appName\x7d\x7d-x" "job1" =
      specPlainReplaceAll appNameTok "\x7b\x7b$appName\x7d\x7d-x" "job1"
  ∧ ingressAppNamespaceURLRegexReplace "\x7b\x7b$appNamespace\x7d\x7d" "ns1" =
      specPlainReplaceAll appNamespaceTok "\x7b\x7b$appNamespace\x7d\x7d" "ns1" :=
  ⟨(url_templating_behavior "\x7b\x7b$appName\x7d\x7d-x" "job1" "ns1").2.1 (by decide),
   (url_templating_behavior "t" "job1" "ns1").2.2.1 (by decide) "\x7b\x7b$appNamespace\x7d\x7d"⟩

/-- Counterexample to C7 as stated: a workload name containing `$` is not
substituted literally — `ReplaceAllString` expands `$x` as an (empty) group
reference, so the placeholder is replaced by the empty string instead of the
name, unlike the spec's literal substitution. -/
theorem url_templating_expansion_counterexample :
    ingressAppNameURLRegexReplace "\x7b\x7b$appName\x7d\x7d.example.com" "$x" = ".example.com"
  ∧ specPlainReplaceAll appNameTok "\x7b\x7b$appName\x7d\x7d.example.com" "$x" =
      "$x.example.com"
  ∧ ¬ ((".example.com" : String) = "$x.example.com")
  ∧ getSparkUIingressURL "\x7b\x7b$appName\x7d\x7d.example.com" "$x" "ns1" =
      Except.ok { scheme := "http", host := ".example.com" } :=
  ⟨rfl, rfl, by decide, rfl⟩

/-! ### C8: the scheme is never empty after templating -/

/-- C8: whenever `getSparkUIingressURL` succeeds, the returned URL has a
non-empty scheme; when the templated string parses with an empty scheme the
function returns the re-parse of the string with `http://` prepended; the spec's
schemeless example yields scheme `http`, host `job1.example.com` and empty path,
and re-parsing the already-schemed URL string gives the very same result. -/
theorem ingress_url_scheme_invariant :
    (∀ t n ns u, getSparkUIingressURL t n ns = Except.ok u → ¬ u.scheme = "")
  ∧ (∀ t n ns p, urlParse (templatedString t n ns) = Except.ok p → p.scheme = "" →
      getSparkUIingressURL t n ns = urlParse ⟨"http://".data ++ (templatedString t n ns).data⟩)
  ∧ getSparkUIingressURL "\x7b\x7b$appName\x7d\x7d.example.com" "job1" "ns1" =
      Except.ok { scheme := "http", host := "job1.example.com", path := "" }
  ∧ urlParse "http://job1.example.com" =
      getSparkUIingressURL "\x7b\x7b$appName\x7d\x7d.example.com" "job1" "ns1" := by
  refine ⟨?_, ?_, rfl, rfl⟩
  · intro t n ns u h
    simp only [getSparkUIingressURL] at h
    rcases hp : urlParse (templatedString t n ns) with e | p
    · rw [hp] at h
      exact Except.noConfusion h
    · rw [hp] at h
      dsimp only at h
      by_cases hs : p.scheme = ""
      · rw [if_pos hs] at h
        have hu : u.scheme = "http" :=
          urlParseCore_http_scheme ((templatedString t n ns).data) u h
        simp [hu]
      · rw [if_neg hs] at h
        cases h
        exact hs
  · intro t n ns p hp hs
    simp only [getSparkUIingressURL]
    rw [hp]
    dsimp only
    rw [if_pos hs]

/-- Witness for `ingress_url_scheme_invariant` at the spec's example. -/
theorem ingress_url_scheme_invariant_witness :
    ¬ (URL.mk "http" "" "job1.example.com" "" false "" "").scheme = ""
  ∧ getSparkUIingressURL "\x7b\x7b$appName\x7d\x7d.example.com" "job1" "ns1" =
      urlParse ⟨"http://".data ++
        (templatedString "\x7b\x7b$appName\x7d\x7d.example.com" "job1" "ns1").data⟩ :=
  ⟨ingress_url_scheme_invariant.1 "\x7b\x7b$appName\x7d\x7d.example.com" "job1" "ns1"
      (URL.mk "http" "" "job1.example.com" "" false "" "") rfl,
   ingress_url_scheme_invariant.2.1 "\x7b\x7b$appName\x7d\x7d.example.com" "job1" "ns1"
      (URL.mk "" "" "" "job1.example.com" false "" "") rfl rfl⟩
